import Mathlib

/-!
A shallow embedding in Lean 4 of the heads-up no-limit poker engine of this
repository (files `src/common.rs`, `src/street.rs`, `src/hand.rs`,
`src/game.rs`), together with theorems settling the specification claims.

Modelling conventions:
* Rust `u64` values are modelled as `Nat`.  The code's `u64` subtractions can
  underflow, which panics in a debug build; every such subtraction is modelled
  with `checkedSub`, and a panic is represented by `Option.none` (or by the
  distinguished error `SubmitError.panic` in fallible entry points).  Addition
  and multiplication overflow (which would require values near `2^64`) is not
  modelled.
* Rust `Vec::pop` + `unwrap` (deck dealing) is modelled by `popBack`, again
  with `none` representing the panic on an empty vector.
* The external `poker` crate's hand evaluator (`Evaluator::evaluate`,
  `Eval::is_better_than`) is an out-of-scope collaborator; it is modelled as a
  function parameter `evalHand : List Card → Option Nat` where a larger number
  means a better hand.  Cards themselves are opaque identifiers (`Nat`).
* JSON serialization in `Game::get_state_json` is external; the embedding
  models the `GameState` value that the function builds and serializes, with
  hole cards kept as cards rather than rendered strings.
-/

namespace Hu4Rolls

/-- Card of the external `poker` crate, modelled as an opaque identifier. -/
abbrev Card := Nat

/-- Source `common.rs`: the two logical seats of a heads-up hand. -/
inductive Position where
  | button
  | bigBlind
deriving DecidableEq, Repr

/-- Source `common.rs`: `other_player`. -/
def other_player : Position → Position
  | .button => .bigBlind
  | .bigBlind => .button

/-- Source `street.rs`: a player's move.  All monetary amounts are the resulting
total contribution for the street ("to", not "by"). -/
inductive Action where
  | fold
  | check
  | postBlind (amount : Nat)
  | call (amount : Nat)
  | bet (amount : Nat)
  | raise (amount : Nat)
deriving DecidableEq, Repr

/-- Source `street.rs`: the name of a betting round. -/
inductive StreetName where
  | preflop
  | flop
  | turn
  | river
  | endOfHand
deriving DecidableEq, Repr

/-- Source `street.rs`: an entry of the currently legal action menu.  `bet` and
`raise` carry inclusive min/max bounds on the resulting "to" amount. -/
inductive ActionOption where
  | fold
  | check
  | postBlind (amount : Nat)
  | call (amount : Nat)
  | bet (min max : Nat)
  | raise (min max : Nat)
deriving DecidableEq, Repr

/-- Source `street.rs`: what a submitted action did to the betting round. -/
inductive ActionResult where
  | bettingOpen
  | bettingClosed
  | fold (p : Position)
deriving DecidableEq, Repr

/-- Outcome classification for fallible operations: the explicit
`Err("Invalid action")` of the source, or a Rust panic (u64 underflow /
`unwrap` failure), which a debug build raises before returning. -/
inductive SubmitError where
  | invalidAction
  | panic
deriving DecidableEq, Repr

/-- Checked `u64` subtraction: `a - b`, or `none` for the underflow panic. -/
def checkedSub (a b : Nat) : Option Nat :=
  if b ≤ a then some (a - b) else none

/-- Model of `Vec::pop().unwrap()`: removes the last element, panicking (`none`) on an
empty vector. -/
def popBack {α : Type} (l : List α) : Option (α × List α) :=
  match l.getLast? with
  | some x => some (x, l.dropLast)
  | none => none

/-- Source `street.rs`: the state of a single betting round. -/
structure Street where
  street : StreetName
  actions : List Action
  min_open_raise : Nat
  btn_start_stack : Nat
  bb_start_stack : Nat
  btn_stack : Nat
  bb_stack : Nat
deriving DecidableEq, Repr

/-- Model of `Street::new`. -/
def Street.new (street : StreetName) (min_open_raise btn_start_stack bb_start_stack : Nat) :
    Street :=
  { street := street
    actions := []
    min_open_raise := min_open_raise
    btn_start_stack := btn_start_stack
    bb_start_stack := bb_start_stack
    btn_stack := btn_start_stack
    bb_stack := bb_start_stack }

/-- Model of `Street::get_first_to_act`. -/
def Street.get_first_to_act (s : Street) : Position :=
  match s.street with
  | .preflop => .button
  | _ => .bigBlind

/-- One iteration of the replay loop in `Street::get_street_status`, acting on
the accumulator `(btn_added_chips, bb_added_chips, minimum_raise_size,
active_player)`.  The `u64` subtraction `amount - bigger_added_chips` in the
`Raise` arm is checked: `none` models the underflow panic. -/
def statusStep (st : Nat × Nat × Nat × Position) (a : Action) :
    Option (Nat × Nat × Nat × Position) :=
  match st with
  | (cb, cbb, m, ap) =>
    let bigger := max cb cbb
    let setActive : Nat → Nat × Nat := fun v =>
      match ap with
      | .button => (v, cbb)
      | .bigBlind => (cb, v)
    match a with
    | .fold => some (cb, cbb, m, other_player ap)
    | .check => some (cb, cbb, m, other_player ap)
    | .call amount =>
        let p := setActive amount
        some (p.1, p.2, m, other_player ap)
    | .postBlind amount =>
        let p := setActive amount
        some (p.1, p.2, 2 * amount, other_player ap)
    | .bet amount =>
        let p := setActive amount
        some (p.1, p.2, 2 * amount, other_player ap)
    | .raise amount =>
        if bigger ≤ amount then
          let p := setActive amount
          some (p.1, p.2, bigger + 2 * (amount - bigger), other_player ap)
        else none

/-- The replay loop of `Street::get_street_status` over a list of actions. -/
def replay (st : Nat × Nat × Nat × Position) : List Action → Option (Nat × Nat × Nat × Position)
  | [] => some st
  | a :: rest =>
    match statusStep st a with
    | some st' => replay st' rest
    | none => none

/-- Model of `Street::get_street_status`: replays the action list and returns
`(btn_added_chips, bb_added_chips, minimum_raise_size, active_player)`;
`none` models the panic on a `Raise` below the larger prior contribution. -/
def Street.get_street_status (s : Street) : Option (Nat × Nat × Nat × Position) :=
  replay (0, 0, s.min_open_raise, s.get_first_to_act) s.actions

/-- Model of `Street::get_available_actions`.  `none` propagates a panic from
`get_street_status`. -/
def Street.get_available_actions (s : Street) : Option (List ActionOption) :=
  if s.street = .preflop ∧ s.actions.length = 0 then
    some [ActionOption.postBlind (s.min_open_raise / 2)]
  else if s.street = .preflop ∧ s.actions.length = 1 then
    some [ActionOption.postBlind s.min_open_raise]
  else
    match s.get_street_status with
    | none => none
    | some (cb, cbb, m, ap) =>
      let active_player_stack := match ap with
        | .button => s.btn_stack
        | .bigBlind => s.bb_stack
      let active_player_initial_stack := match ap with
        | .button => s.btn_start_stack
        | .bigBlind => s.bb_start_stack
      let l1 := [ActionOption.fold]
      let l2 := if cb = 0 ∧ cbb = 0 then l1 ++ [ActionOption.bet m active_player_stack] else l1
      let l3 := if cb ≠ cbb then l2 ++ [ActionOption.call (min (max cb cbb) active_player_initial_stack)] else l2
      let l4 := if cb + cbb > 0 ∧ max cb cbb < active_player_stack then
        l3 ++ [ActionOption.raise m active_player_initial_stack] else l3
      let l5 := if cb = cbb then l4 ++ [ActionOption.check] else l4
      some l5

/-- The matching performed by `Street::is_valid_action` against a computed
action menu: exact match for Fold/Check/Call, inclusive range membership for
Bet/Raise, and `PostBlind(_) => true` (the source assumes blind posting is
always valid). -/
def matchesOption (available : List ActionOption) (a : Action) : Bool :=
  match a with
  | .fold => available.any fun x => match x with | .fold => true | _ => false
  | .check => available.any fun x => match x with | .check => true | _ => false
  | .call amount => available.any fun x => match x with
      | .call k => k == amount
      | _ => false
  | .postBlind _ => true
  | .bet amount => available.any fun x => match x with
      | .bet lo hi => lo ≤ amount && amount ≤ hi
      | _ => false
  | .raise amount => available.any fun x => match x with
      | .raise lo hi => lo ≤ amount && amount ≤ hi
      | _ => false

/-- Model of `Street::is_valid_action`; `none` propagates a panic from
`get_available_actions`. -/
def Street.is_valid_action (s : Street) (a : Action) : Option Bool :=
  match s.get_available_actions with
  | none => none
  | some available => some (matchesOption available a)

/-- The classification of an action's effect on the round, computed inside
`Street::submit_action` (its `match action` block): Fold ends the round with
the folder recorded; Check closes betting iff the checker was last to act;
Call closes betting except for a button limp on the preflop
(`amount == self.min_open_raise`); everything else leaves betting open.
`ap` is the active player from the pre-action street status. -/
def resultFor (s : Street) (a : Action) (ap : Position) : ActionResult :=
  match a with
  | .fold => .fold ap
  | .check => if ap = other_player s.get_first_to_act then .bettingClosed else .bettingOpen
  | .call amount =>
      if s.street = .preflop ∧ ap = .button ∧ amount = s.min_open_raise then .bettingOpen
      else .bettingClosed
  | _ => .bettingOpen

/-- Model of `Street::submit_action`.  Mutation of `self` is modelled by returning the
updated street next to the `ActionResult`; the `last_to_act` comparison and
the `match action` classification are in `resultFor`. -/
def Street.submit_action (s : Street) (a : Action) :
    Except SubmitError (ActionResult × Street) :=
  match s.is_valid_action a with
  | none => .error .panic
  | some false => .error .invalidAction
  | some true =>
    match s.get_street_status with
    | none => .error .panic
    | some (_, _, _, active_player) =>
      let s1 : Street := { s with actions := s.actions ++ [a] }
      let result : ActionResult := resultFor s a active_player
      match s1.get_street_status with
      | none => .error .panic
      | some (cb, cbb, _, _) =>
        match checkedSub s.btn_start_stack cb, checkedSub s.bb_start_stack cbb with
        | some bs, some bbs => .ok (result, { s1 with btn_stack := bs, bb_stack := bbs })
        | _, _ => .error .panic

/-- Source `hand.rs`: the state of a single hand of poker. -/
structure Hand where
  btn_hole_cards : Card × Card
  bb_hole_cards : Card × Card
  board_cards : List Card
  deck : List Card
  sb_size : Nat
  btn_start_stack : Nat
  bb_start_stack : Nat
  btn_stack : Nat
  bb_stack : Nat
  pot : Nat
  streets : List Street
deriving DecidableEq, Repr

/-- Source `hand.rs`: the record returned by `Hand::run_showdown` (the `Eval` values
of the external evaluator are modelled as `Nat` ranks). -/
structure Showdown where
  btn_eval : Nat
  bb_eval : Nat
  btn_hole_cards : Card × Card
  bb_hole_cards : Card × Card
deriving DecidableEq, Repr

/-- Source `hand.rs`: the summary of a concluded hand. -/
structure HandResult where
  winner : Option Position
  btn_next_hand_stack : Nat
  bb_next_hand_stack : Nat
  showdown : Option Showdown
deriving DecidableEq, Repr

/-- Model of `Hand::new`: pops two hole cards for the button, then two for the big
blind, and creates the preflop betting round with `min_open_raise = 2 *
sb_size`.  `none` models the `unwrap` panic on a deck of fewer than 4
cards. -/
def Hand.new (deck : List Card) (btn_stack bb_stack sb_size : Nat) : Option Hand :=
  match popBack deck with
  | none => none
  | some (c1, d1) =>
    match popBack d1 with
    | none => none
    | some (c2, d2) =>
      match popBack d2 with
      | none => none
      | some (c3, d3) =>
        match popBack d3 with
        | none => none
        | some (c4, d4) =>
          some
            { btn_hole_cards := (c1, c2)
              bb_hole_cards := (c3, c4)
              board_cards := []
              deck := d4
              sb_size := sb_size
              btn_start_stack := btn_stack
              bb_start_stack := bb_stack
              btn_stack := btn_stack
              bb_stack := bb_stack
              pot := 0
              streets := [Street.new .preflop (2 * sb_size) btn_stack bb_stack] }

/-- Model of `Hand::run_showdown`, with the external evaluator passed in as
`evalHand` (larger rank = better hand; `none` = the `unwrap` panic on an
evaluation failure). -/
def Hand.run_showdown (evalHand : List Card → Option Nat) (h : Hand) :
    Option (Showdown × Option Position) :=
  let btn_hand := [h.btn_hole_cards.1, h.btn_hole_cards.2] ++ h.board_cards
  let bb_hand := [h.bb_hole_cards.1, h.bb_hole_cards.2] ++ h.board_cards
  match evalHand btn_hand, evalHand bb_hand with
  | some btn_hand_eval, some bb_hand_eval =>
    let showdown : Showdown :=
      { btn_eval := btn_hand_eval
        bb_eval := bb_hand_eval
        btn_hole_cards := h.btn_hole_cards
        bb_hole_cards := h.bb_hole_cards }
    if bb_hand_eval < btn_hand_eval then some (showdown, some .button)
    else if btn_hand_eval < bb_hand_eval then some (showdown, some .bigBlind)
    else some (showdown, none)
  | _, _ => none

/-- Model of `Hand::goto_next_street`: deals board cards for the next street and pushes
a fresh betting round carrying the current stacks.  `none` models the panics
(`unwrap` on an exhausted deck, the explicit `panic!` on River, `unwrap` on an
empty street list). -/
def Hand.goto_next_street (h : Hand) : Option Hand :=
  match h.streets.getLast? with
  | none => none
  | some last =>
    let pushNext : Hand → StreetName → Hand := fun h' nm =>
      { h' with streets := h'.streets ++ [Street.new nm (h'.sb_size * 2) h'.btn_stack h'.bb_stack] }
    match last.street with
    | .preflop =>
      match popBack h.deck with
      | none => none
      | some (b1, d1) =>
        match popBack d1 with
        | none => none
        | some (b2, d2) =>
          match popBack d2 with
          | none => none
          | some (b3, d3) =>
            some (pushNext { h with board_cards := h.board_cards ++ [b1, b2, b3], deck := d3 } .flop)
    | .flop =>
      match popBack h.deck with
      | none => none
      | some (b1, d1) =>
        some (pushNext { h with board_cards := h.board_cards ++ [b1], deck := d1 } .turn)
    | .turn =>
      match popBack h.deck with
      | none => none
      | some (b1, d1) =>
        some (pushNext { h with board_cards := h.board_cards ++ [b1], deck := d1 } .river)
    | .river => none
    | .endOfHand => some (pushNext h .preflop)

/-- The loop of `Hand::update_pot_and_stacks`, over the accumulator
`(pot, btn_stack, bb_stack)`; `none` models a panic (status replay or `u64`
underflow of a stack update). -/
def potsFold (pot bs bbs : Nat) : List Street → Option (Nat × Nat × Nat)
  | [] => some (pot, bs, bbs)
  | st :: rest =>
    match st.get_street_status with
    | none => none
    | some (cb, cbb, _, _) =>
      match checkedSub bs cb, checkedSub bbs cbb with
      | some bs', some bbs' => potsFold (pot + (cb + cbb)) bs' bbs' rest
      | _, _ => none

/-- Model of `Hand::update_pot_and_stacks`: recomputes pot and both stacks from all
streets, starting from the hand-start stacks. -/
def Hand.update_pot_and_stacks (h : Hand) : Option Hand :=
  match potsFold 0 h.btn_start_stack h.bb_start_stack h.streets with
  | none => none
  | some (pot, bs, bbs) => some { h with pot := pot, btn_stack := bs, bb_stack := bbs }

/-- Model of `Hand::get_stacks_after_hand`: next-hand stacks after distributing the
pot to `winner` (`none` winner = split pot).  The `u64` subtractions deriving
each player's total contribution are checked. -/
def Hand.get_stacks_after_hand (h : Hand) (winner : Option Position) : Option (Nat × Nat) :=
  match checkedSub h.btn_start_stack h.btn_stack, checkedSub h.bb_start_stack h.bb_stack with
  | some btn_added, some bb_added =>
    match winner with
    | some .button => some (h.btn_start_stack + bb_added, h.bb_start_stack - bb_added)
    | some .bigBlind => some (h.btn_start_stack - btn_added, h.bb_start_stack + btn_added)
    | none => some (h.btn_start_stack, h.bb_start_stack)
  | _, _ => none

/-- Model of `Hand::submit_action`: validates against the current (last) street,
forwards to `Street::submit_action`, recomputes pot and stacks, and advances
the hand (next street, fold resolution, or river showdown). -/
def Hand.submit_action (evalHand : List Card → Option Nat) (h : Hand) (a : Action) :
    Except SubmitError (Option HandResult × Hand) :=
  match h.streets.getLast? with
  | none => .error .panic
  | some street =>
    match street.is_valid_action a with
    | none => .error .panic
    | some false => .error .invalidAction
    | some true =>
      match street.submit_action a with
      | .error e => .error e
      | .ok (res, street') =>
        let h1 : Hand := { h with streets := h.streets.dropLast ++ [street'] }
        match h1.update_pot_and_stacks with
        | none => .error .panic
        | some h2 =>
          match res with
          | .bettingClosed =>
            if street.street = .river then
              match h2.run_showdown evalHand with
              | none => .error .panic
              | some (sd, winner) =>
                match h2.get_stacks_after_hand winner with
                | none => .error .panic
                | some (bs, bbs) =>
                  .ok (some { winner := winner, btn_next_hand_stack := bs,
                              bb_next_hand_stack := bbs, showdown := some sd }, h2)
            else
              match h2.goto_next_street with
              | none => .error .panic
              | some h3 => .ok (none, h3)
          | .bettingOpen => .ok (none, h2)
          | .fold player =>
            let winner := other_player player
            match h2.get_stacks_after_hand (some winner) with
            | none => .error .panic
            | some (bs, bbs) =>
              .ok (some { winner := some winner, btn_next_hand_stack := bs,
                          bb_next_hand_stack := bbs, showdown := none }, h2)

/-- Source `game.rs`: a table owning the current hand and the physical seat (0 or 1)
holding the button. -/
structure Game where
  current_hand : Hand
  button_seat : Nat
deriving DecidableEq, Repr

/-- Source `game.rs`: the snapshot built by `Game::get_state_json` (the JSON
rendering itself is external; hole cards are kept as cards rather than
rendered strings). -/
structure GameState where
  pot_size : Nat
  btn_stack : Nat
  bb_stack : Nat
  btn_added_chips_this_street : Nat
  bb_added_chips_this_street : Nat
  button_seat : Nat
  sb_size : Nat
  bb_size : Nat
  btn_hole_cards : Option (Card × Card)
  bb_hole_cards : Option (Card × Card)
  board_cards : List Card
  available_actions : List ActionOption
  active_player : Position
deriving DecidableEq, Repr

/-- The `GameState` value that `Game::get_state_json` builds for `for_seat`
and serializes.  `none` models the panics (`unwrap` on an empty street list,
or a status/menu replay panic). -/
def Game.get_state (g : Game) (for_seat : Nat) : Option GameState :=
  match g.current_hand.streets.getLast? with
  | none => none
  | some street =>
    match street.get_street_status with
    | none => none
    | some (btn_added_chips, bb_added_chips, _, active_player) =>
      match street.get_available_actions with
      | none => none
      | some available =>
        some
          { pot_size := g.current_hand.pot
            btn_stack := g.current_hand.btn_stack
            bb_stack := g.current_hand.bb_stack
            btn_added_chips_this_street := btn_added_chips
            bb_added_chips_this_street := bb_added_chips
            button_seat := g.button_seat
            sb_size := g.current_hand.sb_size
            bb_size := g.current_hand.sb_size * 2
            btn_hole_cards :=
              if for_seat = g.button_seat then some g.current_hand.btn_hole_cards else none
            bb_hole_cards :=
              if for_seat = g.button_seat then none else some g.current_hand.bb_hole_cards
            board_cards := g.current_hand.board_cards
            available_actions := available
            active_player := active_player }

/-! ## Helper functions and lemmas -/

/-- The this-street contribution of position `ap` in a status pair. -/
def addedOf (ap : Position) (cb cbb : Nat) : Nat :=
  match ap with
  | .button => cb
  | .bigBlind => cbb

/-- The active player's remaining stack, as read by `get_available_actions`. -/
def activeStack (s : Street) (ap : Position) : Nat :=
  match ap with
  | .button => s.btn_stack
  | .bigBlind => s.bb_stack

/-- The active player's street-start stack, as read by
`get_available_actions`. -/
def activeStartStack (s : Street) (ap : Position) : Nat :=
  match ap with
  | .button => s.btn_start_stack
  | .bigBlind => s.bb_start_stack

/-- Extracts the updated street from a `Street::submit_action` result. -/
def okStreet (e : Except SubmitError (ActionResult × Street)) : Option Street :=
  match e with
  | .ok (_, s) => some s
  | .error _ => none

/-- Extracts the `ActionResult` from a `Street::submit_action` result. -/
def resOf (e : Except SubmitError (ActionResult × Street)) : Option ActionResult :=
  match e with
  | .ok (r, _) => some r
  | .error _ => none

/-- Whether a `Street::submit_action` result is `Ok`. -/
def isOkE (e : Except SubmitError (ActionResult × Street)) : Bool :=
  match e with
  | .ok _ => true
  | .error _ => false

/-- Extracts the updated hand from a `Hand::submit_action` result. -/
def okHand (e : Except SubmitError (Option HandResult × Hand)) : Option Hand :=
  match e with
  | .ok (_, h) => some h
  | .error _ => none

/-- The total of both players' per-street contributions, summed over a list of
streets with each street's contributions computed by `get_street_status`
(`none` if some street's replay panics). -/
def streetContribSums : List Street → Option Nat
  | [] => some 0
  | st :: rest =>
    match st.get_street_status, streetContribSums rest with
    | some (cb, cbb, _, _), some srest => some (cb + cbb + srest)
    | _, _ => none

theorem replay_append (l : List Action) (a : Action) (st : Nat × Nat × Nat × Position) :
    replay st (l ++ [a]) =
      match replay st l with
      | some st' => statusStep st' a
      | none => none := by
  induction l generalizing st with
  | nil =>
    simp only [List.nil_append, replay]
    cases statusStep st a <;> simp [replay]
  | cons b rest ih =>
    simp only [List.cons_append, replay]
    cases statusStep st b <;> simp [ih]

theorem popBack_concat {α : Type} (l : List α) (x : α) : popBack (l ++ [x]) = some (x, l) := by
  simp [popBack, List.getLast?_concat, List.dropLast_concat]

/-- The status of a street with one action appended is one `statusStep` applied
to the status of the original street. -/
theorem get_street_status_push (s : Street) (a : Action) :
    Street.get_street_status { s with actions := s.actions ++ [a] } =
      match s.get_street_status with
      | some st' => statusStep st' a
      | none => none := by
  unfold Street.get_street_status
  simp only [Street.get_first_to_act]
  exact replay_append s.actions a _

theorem checkedSub_eq_some {a b c : Nat} (h : checkedSub a b = some c) : b ≤ a ∧ c = a - b := by
  unfold checkedSub at h
  split at h
  · injection h with h
    exact ⟨by assumption, h.symm⟩
  · exact Option.noConfusion h

theorem checkedSub_of_le {a b : Nat} (h : b ≤ a) : checkedSub a b = some (a - b) := by
  simp [checkedSub, h]

/-- Success characterization of `Street::submit_action`: the call returns
`Ok` exactly when the action is valid, neither status replay panics, and
neither stack update underflows; the result is classified by `resultFor` on
the pre-action active player, and the updated street has the action appended
and both stacks recomputed from the street-start stacks. -/
theorem submit_action_ok_iff (s : Street) (a : Action) (r : ActionResult) (s' : Street) :
    s.submit_action a = .ok (r, s') ↔
      (s.is_valid_action a = some true ∧
       ∃ cb cbb m ap, s.get_street_status = some (cb, cbb, m, ap) ∧
       ∃ cb1 cbb1 m1 ap1,
         Street.get_street_status { s with actions := s.actions ++ [a] } =
           some (cb1, cbb1, m1, ap1) ∧
         cb1 ≤ s.btn_start_stack ∧ cbb1 ≤ s.bb_start_stack ∧
         r = resultFor s a ap ∧
         s' = { s with
                 actions := s.actions ++ [a],
                 btn_stack := s.btn_start_stack - cb1,
                 bb_stack := s.bb_start_stack - cbb1 }) := by
  constructor
  · intro hsub
    unfold Street.submit_action at hsub
    split at hsub <;> try exact Except.noConfusion hsub
    rename_i hval
    split at hsub <;> try exact Except.noConfusion hsub
    rename_i xst cb cbb m ap hst
    simp only [] at hsub
    split at hsub <;> try exact Except.noConfusion hsub
    rename_i xst1 cb1 cbb1 m1 ap1 hst1
    split at hsub <;> try exact Except.noConfusion hsub
    rename_i xcs1 xcs2 bs bbs hcs1 hcs2
    rw [Except.ok.injEq, Prod.mk.injEq] at hsub
    obtain ⟨hr, hs'⟩ := hsub
    obtain ⟨h1, hbs⟩ := checkedSub_eq_some hcs1
    obtain ⟨h2, hbbs⟩ := checkedSub_eq_some hcs2
    subst hbs
    subst hbbs
    exact ⟨hval, cb, cbb, m, ap, hst, cb1, cbb1, m1, ap1, hst1, h1, h2, hr.symm, hs'.symm⟩
  · rintro ⟨hval, cb, cbb, m, ap, hst, cb1, cbb1, m1, ap1, hst1, h1, h2, hr, hs'⟩
    subst hr
    subst hs'
    unfold Street.submit_action
    simp only [hval, hst, hst1, checkedSub_of_le h1, checkedSub_of_le h2]

/-- The evaluator parameter used for concrete runs that never reach a
showdown. -/
def ev0 : List Card → Option Nat := fun _ => some 0

/-- A concrete nine-card deck for scenario runs. -/
def deck9 : List Card := [1, 2, 3, 4, 5, 6, 7, 8, 9]

/-! ## C4: min-raise arithmetic of the replay step -/

/-- Claim C4: in the replay performed by `get_street_status`, `PostBlind(a)`
and `Bet(a)` set the minimum legal raise-to to `2 * a`, and `Raise(r)` with
larger prior contribution `p` sets it to `p + 2 * (r - p) = r + (r - p)`; in
each case the acting player's contribution is set to exactly the action's
amount ("to" semantics) and the other player's contribution is unchanged. -/
theorem claim_C4_min_raise_step (cb cbb m : Nat) (ap : Position) (n : Nat) :
    (∀ s : Street, s.get_street_status = replay (0, 0, s.min_open_raise, s.get_first_to_act) s.actions) ∧
    (∃ cb' cbb', statusStep (cb, cbb, m, ap) (.postBlind n) = some (cb', cbb', 2 * n, other_player ap) ∧
      addedOf ap cb' cbb' = n ∧ addedOf (other_player ap) cb' cbb' = addedOf (other_player ap) cb cbb) ∧
    (∃ cb' cbb', statusStep (cb, cbb, m, ap) (.bet n) = some (cb', cbb', 2 * n, other_player ap) ∧
      addedOf ap cb' cbb' = n ∧ addedOf (other_player ap) cb' cbb' = addedOf (other_player ap) cb cbb) ∧
    (max cb cbb ≤ n →
      ∃ cb' cbb', statusStep (cb, cbb, m, ap) (.raise n) =
          some (cb', cbb', max cb cbb + 2 * (n - max cb cbb), other_player ap) ∧
        max cb cbb + 2 * (n - max cb cbb) = n + (n - max cb cbb) ∧
        addedOf ap cb' cbb' = n ∧ addedOf (other_player ap) cb' cbb' = addedOf (other_player ap) cb cbb) := by
  refine ⟨fun s => rfl, ?_, ?_, ?_⟩
  · cases ap <;> exact ⟨_, _, rfl, rfl, rfl⟩
  · cases ap <;> exact ⟨_, _, rfl, rfl, rfl⟩
  · intro hle
    cases ap <;>
      refine ⟨_, _, ?_, by omega, rfl, rfl⟩ <;>
      simp [statusStep, hle]

/-- Witness for C4 at a concrete input. -/
theorem claim_C4_min_raise_step_witness :
    max 10 20 ≤ 50 ∧
    (∃ cb' cbb', statusStep (10, 20, 40, Position.button) (.raise 50) =
        some (cb', cbb', max 10 20 + 2 * (50 - max 10 20), other_player Position.button) ∧
      max 10 20 + 2 * (50 - max 10 20) = 50 + (50 - max 10 20) ∧
      addedOf Position.button cb' cbb' = 50 ∧
      addedOf (other_player Position.button) cb' cbb' = addedOf (other_player Position.button) 10 20) :=
  ⟨by decide, (claim_C4_min_raise_step 10 20 40 Position.button 50).2.2.2 (by decide)⟩

/-! ## C2: what `Hand::new` does -/

/-- Counterexample to claim C2 as stated: a freshly constructed hand's preflop
action list is empty — `Hand::new` does **not** submit `PostBlind(sb_size)`
and `PostBlind(2 * sb_size)` into the preflop betting round (the repository's
own tests post the blinds explicitly after construction). -/
theorem claim_C2_counterexample :
    (Hand.new deck9 500 600 5).map (fun h => h.streets.map Street.actions) = some [[]] ∧
    (Action.postBlind 5 ∉ ([] : List Action)) := by
  constructor
  · rfl
  · simp

/-- Claim C2 as amended: `Hand::new(deck, btn_stack, bb_stack, sb_size)` pops
two hole cards for the Button first and then two for the BigBlind (from the
back of the deck), and creates the Preflop betting round with
`min_open_raise = 2 * sb_size` — but it does **not** submit any blind
actions: the new hand's preflop action list is empty and the blinds are
posted by the caller. -/
theorem claim_C2_amended (d : List Card) (c1 c2 c3 c4 : Card) (b1 b2 sb : Nat) :
    Hand.new (d ++ [c4, c3, c2, c1]) b1 b2 sb =
      some
        { btn_hole_cards := (c1, c2)
          bb_hole_cards := (c3, c4)
          board_cards := []
          deck := d
          sb_size := sb
          btn_start_stack := b1
          bb_start_stack := b2
          btn_stack := b1
          bb_stack := b2
          pot := 0
          streets := [Street.new .preflop (2 * sb) b1 b2] } ∧
    (Street.new .preflop (2 * sb) b1 b2).actions = [] := by
  refine ⟨?_, rfl⟩
  have e1 : d ++ [c4, c3, c2, c1] = (d ++ [c4, c3, c2]) ++ [c1] := by simp
  have e2 : d ++ [c4, c3, c2] = (d ++ [c4, c3]) ++ [c2] := by simp
  have e3 : d ++ [c4, c3] = (d ++ [c4]) ++ [c3] := by simp
  unfold Hand.new
  rw [e1, popBack_concat]
  simp only []
  rw [e2, popBack_concat]
  simp only []
  rw [e3, popBack_concat]
  simp only []
  rw [popBack_concat]

/-! ## C5: the blinds scenario -/

/-- The hand after `PostBlind(5)`, `PostBlind(10)` on a fresh
`Hand::new(deck9, 500, 600, 5)`. -/
def c5Hand : Option Hand :=
  ((Hand.new deck9 500 600 5).bind fun h => okHand (h.submit_action ev0 (.postBlind 5))).bind
    fun h => okHand (h.submit_action ev0 (.postBlind 10))

/-- The available actions of the current street of `c5Hand`. -/
def c5Available : Option (List ActionOption) :=
  c5Hand.bind fun h => h.streets.getLast?.bind Street.get_available_actions

/-- Counterexample to claim C5 as stated: after the blinds with
`sb = 5, btn = 500, bb = 600`, the available actions are
`{Fold, Call(10), Raise(20, 500)}` — the raise maximum is the street-start
stack `500`, not `495` as the claim says (the repository's own
`test_initial_state` asserts `Raise(20, 500)`). -/
theorem claim_C5_counterexample :
    c5Available = some [ActionOption.fold, ActionOption.call 10, ActionOption.raise 20 500] ∧
    ActionOption.raise 20 495 ∉
      [ActionOption.fold, ActionOption.call 10, ActionOption.raise 20 500] := by
  constructor
  · rfl
  · decide

/-- Claim C5 as amended: with `sb_size = 5`, button stack 500, big-blind stack
600, after `PostBlind(5)` then `PostBlind(10)` the pot is 15, the button
stack is 495, the big-blind stack is 590, and the available actions are
exactly `{Fold, Call(10), Raise(20, 500)}` (raise max = street-start stack),
with no Check offered. -/
theorem claim_C5_amended :
    c5Hand.map Hand.pot = some 15 ∧
    c5Hand.map Hand.btn_stack = some 495 ∧
    c5Hand.map Hand.bb_stack = some 590 ∧
    c5Available = some [ActionOption.fold, ActionOption.call 10, ActionOption.raise 20 500] ∧
    ActionOption.check ∉ [ActionOption.fold, ActionOption.call 10, ActionOption.raise 20 500] := by
  refine ⟨rfl, rfl, rfl, rfl, by decide⟩

/-! ## Characterization of the available-action menu -/

/-- The menu built by `get_available_actions` outside the preflop blind
phase, as a function of the street status. -/
def fullMenu (s : Street) (cb cbb m : Nat) (ap : Position) : List ActionOption :=
  [ActionOption.fold]
  ++ (if cb = 0 ∧ cbb = 0 then [ActionOption.bet m (activeStack s ap)] else [])
  ++ (if cb ≠ cbb then [ActionOption.call (min (max cb cbb) (activeStartStack s ap))] else [])
  ++ (if cb + cbb > 0 ∧ max cb cbb < activeStack s ap then
    [ActionOption.raise m (activeStartStack s ap)] else [])
  ++ (if cb = cbb then [ActionOption.check] else [])

theorem get_available_actions_full (s : Street) (cb cbb m : Nat) (ap : Position)
    (h0 : ¬(s.street = .preflop ∧ s.actions.length = 0))
    (h1 : ¬(s.street = .preflop ∧ s.actions.length = 1))
    (hst : s.get_street_status = some (cb, cbb, m, ap)) :
    s.get_available_actions = some (fullMenu s cb cbb m ap) := by
  unfold Street.get_available_actions fullMenu
  rw [if_neg h0, if_neg h1, hst]
  cases ap <;>
    · simp only [activeStack, activeStartStack]
      split_ifs <;> simp_all

theorem mem_ite_single {c : Prop} [Decidable c] (x o : ActionOption) :
    (o ∈ (if c then [x] else [])) ↔ (c ∧ o = x) := by
  split <;> simp_all

theorem mem_fullMenu (s : Street) (cb cbb m : Nat) (ap : Position) (o : ActionOption) :
    o ∈ fullMenu s cb cbb m ap ↔
      (o = .fold ∨
       ((cb = 0 ∧ cbb = 0) ∧ o = .bet m (activeStack s ap)) ∨
       (cb ≠ cbb ∧ o = .call (min (max cb cbb) (activeStartStack s ap))) ∨
       ((0 < cb + cbb ∧ max cb cbb < activeStack s ap) ∧ o = .raise m (activeStartStack s ap)) ∨
       (cb = cbb ∧ o = .check)) := by
  simp only [fullMenu, List.mem_append, List.mem_singleton, mem_ite_single]
  tauto

theorem matchesOption_fold (av : List ActionOption) :
    matchesOption av .fold = true ↔ ActionOption.fold ∈ av := by
  simp only [matchesOption, List.any_eq_true]
  constructor
  · rintro ⟨x, hx, hm⟩
    cases x <;> simp_all
  · intro h
    exact ⟨.fold, h, rfl⟩

theorem matchesOption_chk (av : List ActionOption) :
    matchesOption av .check = true ↔ ActionOption.check ∈ av := by
  simp only [matchesOption, List.any_eq_true]
  constructor
  · rintro ⟨x, hx, hm⟩
    cases x <;> simp_all
  · intro h
    exact ⟨.check, h, rfl⟩

theorem matchesOption_call (av : List ActionOption) (n : Nat) :
    matchesOption av (.call n) = true ↔ ActionOption.call n ∈ av := by
  simp only [matchesOption, List.any_eq_true]
  constructor
  · rintro ⟨x, hx, hm⟩
    cases x <;> simp_all
  · intro h
    exact ⟨.call n, h, by simp⟩

theorem matchesOption_post (av : List ActionOption) (n : Nat) :
    matchesOption av (.postBlind n) = true := rfl

theorem matchesOption_bet (av : List ActionOption) (n : Nat) :
    matchesOption av (.bet n) = true ↔
      ∃ lo hi, ActionOption.bet lo hi ∈ av ∧ lo ≤ n ∧ n ≤ hi := by
  simp only [matchesOption, List.any_eq_true]
  constructor
  · rintro ⟨x, hx, hm⟩
    cases x with
    | bet lo hi =>
      simp only [Bool.and_eq_true, decide_eq_true_eq] at hm
      exact ⟨lo, hi, hx, hm.1, hm.2⟩
    | fold => simp at hm
    | check => simp at hm
    | postBlind k => simp at hm
    | call k => simp at hm
    | raise lo hi => simp at hm
  · rintro ⟨lo, hi, h, h1, h2⟩
    exact ⟨.bet lo hi, h, by simp [h1, h2]⟩

theorem matchesOption_raise (av : List ActionOption) (n : Nat) :
    matchesOption av (.raise n) = true ↔
      ∃ lo hi, ActionOption.raise lo hi ∈ av ∧ lo ≤ n ∧ n ≤ hi := by
  simp only [matchesOption, List.any_eq_true]
  constructor
  · rintro ⟨x, hx, hm⟩
    cases x with
    | raise lo hi =>
      simp only [Bool.and_eq_true, decide_eq_true_eq] at hm
      exact ⟨lo, hi, hx, hm.1, hm.2⟩
    | fold => simp at hm
    | check => simp at hm
    | postBlind k => simp at hm
    | call k => simp at hm
    | bet lo hi => simp at hm
  · rintro ⟨lo, hi, h, h1, h2⟩
    exact ⟨.raise lo hi, h, by simp [h1, h2]⟩

/-! ## C3: rejection behaviour of `Street::submit_action` -/

/-- A fresh flop street used in concrete counterexamples. -/
def c3Street : Street := Street.new .flop 10 1000 2000

/-- Counterexample to claim C3 as stated: on a fresh flop street the menu is
`{Fold, Bet(10, 2000), Check}`, so `PostBlind(7)` matches none of the
returned options — yet `submit_action` accepts it (the source's
`is_valid_action` treats every `PostBlind` as valid), returning `Ok` instead
of `Err("Invalid action")` and mutating the street. -/
theorem claim_C3_counterexample :
    c3Street.get_available_actions =
      some [ActionOption.fold, ActionOption.bet 10 2000, ActionOption.check] ∧
    ActionOption.postBlind 7 ∉
      [ActionOption.fold, ActionOption.bet 10 2000, ActionOption.check] ∧
    c3Street.submit_action (.postBlind 7) ≠ Except.error SubmitError.invalidAction ∧
    isOkE (c3Street.submit_action (.postBlind 7)) = true ∧
    okStreet (c3Street.submit_action (.postBlind 7)) ≠ some c3Street := by
  refine ⟨rfl, by decide, ?_, rfl, by decide⟩
  intro h
  have hOk : isOkE (c3Street.submit_action (.postBlind 7)) = true := rfl
  rw [h] at hOk
  simp [isOkE] at hOk

/-- Claim C3 as amended: `Street::submit_action` returns
`Err("Invalid action")` **iff** the submitted action fails the matching of
`is_valid_action` against `get_available_actions` — exact match by amount for
Fold/Check/Call and inclusive-range membership for Bet/Raise, but with
`PostBlind` always accepted regardless of the menu.  When the matching fails
the function returns the error before any mutation, so the street (actions,
stacks) is unchanged. -/
theorem claim_C3_amended (s : Street) (a : Action) (av : List ActionOption)
    (hav : s.get_available_actions = some av) :
    s.submit_action a = .error .invalidAction ↔ matchesOption av a = false := by
  cases hm : matchesOption av a with
  | false =>
    have hval : s.is_valid_action a = some false := by
      unfold Street.is_valid_action
      rw [hav]
      exact congrArg some hm
    simp only [Street.submit_action, hval]
  | true =>
    have hval : s.is_valid_action a = some true := by
      unfold Street.is_valid_action
      rw [hav]
      exact congrArg some hm
    simp only [Street.submit_action, hval]
    constructor
    · intro h
      exfalso
      split at h <;> try exact absurd h (by simp)
      split at h <;> try exact absurd h (by simp)
      split at h <;> exact absurd h (by simp)
    · intro h
      cases h

/-- Witness for C3 (amended) at a concrete input. -/
theorem claim_C3_amended_witness :
    c3Street.get_available_actions =
      some [ActionOption.fold, ActionOption.bet 10 2000, ActionOption.check] ∧
    (c3Street.submit_action .fold = .error .invalidAction ↔
      matchesOption [ActionOption.fold, ActionOption.bet 10 2000, ActionOption.check] .fold = false) :=
  ⟨rfl, claim_C3_amended c3Street .fold
    [ActionOption.fold, ActionOption.bet 10 2000, ActionOption.check] rfl⟩

/-! ## C8: the Call option -/

/-- Counterexample to claim C8 as stated: on the preflop street after only
`PostBlind(5)`, the two contributions (5 and 0) differ, but the menu is the
blind-phase singleton `[PostBlind(10)]` — no `Call` is offered. -/
theorem claim_C8_counterexample :
    okStreet ((Street.new .preflop 10 500 600).submit_action (.postBlind 5)) =
      some { street := .preflop, actions := [.postBlind 5], min_open_raise := 10,
             btn_start_stack := 500, bb_start_stack := 600, btn_stack := 495, bb_stack := 600 } ∧
    (okStreet ((Street.new .preflop 10 500 600).submit_action (.postBlind 5))).bind
        Street.get_street_status = some (5, 0, 10, Position.bigBlind) ∧
    (5 ≠ 0) ∧
    (okStreet ((Street.new .preflop 10 500 600).submit_action (.postBlind 5))).bind
        Street.get_available_actions = some [ActionOption.postBlind 10] ∧
    ActionOption.call (min (max 5 0) 600) ∉ [ActionOption.postBlind 10] := by
  refine ⟨rfl, rfl, by decide, rfl, by decide⟩

/-- Claim C8 as amended: outside the preflop blind phase (the first two
actions of the preflop street, where only `PostBlind` is offered),
`get_available_actions` offers `Call(min(larger contribution, active
player's street-start stack))` exactly when the two contributions differ; a
`Call` option is never offered when the contributions are equal (in any
phase), and every offered `Call` amount equals that formula. -/
theorem claim_C8_amended (s : Street) (cb cbb m : Nat) (ap : Position) (av : List ActionOption)
    (hst : s.get_street_status = some (cb, cbb, m, ap))
    (hav : s.get_available_actions = some av) :
    (¬(s.street = .preflop ∧ (s.actions.length = 0 ∨ s.actions.length = 1)) →
      (cb ≠ cbb ↔ ActionOption.call (min (max cb cbb) (activeStartStack s ap)) ∈ av)) ∧
    (cb = cbb → ∀ n, ActionOption.call n ∉ av) ∧
    (∀ n, ActionOption.call n ∈ av → cb ≠ cbb ∧ n = min (max cb cbb) (activeStartStack s ap)) := by
  by_cases h0 : s.street = .preflop ∧ s.actions.length = 0
  · unfold Street.get_available_actions at hav
    rw [if_pos h0] at hav
    injection hav with hv
    subst hv
    exact ⟨fun hph => absurd ⟨h0.1, Or.inl h0.2⟩ hph,
           fun _ n hn => by simp at hn,
           fun n hn => by simp at hn⟩
  · by_cases h1 : s.street = .preflop ∧ s.actions.length = 1
    · unfold Street.get_available_actions at hav
      rw [if_neg h0, if_pos h1] at hav
      injection hav with hv
      subst hv
      exact ⟨fun hph => absurd ⟨h1.1, Or.inr h1.2⟩ hph,
             fun _ n hn => by simp at hn,
             fun n hn => by simp at hn⟩
    · rw [get_available_actions_full s cb cbb m ap h0 h1 hst] at hav
      injection hav with hv
      subst hv
      refine ⟨fun _ => ⟨fun hne => ?_, fun hmem => ?_⟩, fun heq n hn => ?_, fun n hn => ?_⟩
      · rw [mem_fullMenu]
        exact Or.inr (Or.inr (Or.inl ⟨hne, rfl⟩))
      · rw [mem_fullMenu] at hmem
        rcases hmem with h | h | h | h | h <;> simp_all
      · rw [mem_fullMenu] at hn
        rcases hn with h | h | h | h | h <;> simp_all
      · rw [mem_fullMenu] at hn
        rcases hn with h | h | h | h | h <;> simp_all

/-- Concrete preflop street (blinds already posted) for witnesses. -/
def c8wStreet : Street :=
  { street := .preflop, actions := [.postBlind 5, .postBlind 10], min_open_raise := 10,
    btn_start_stack := 500, bb_start_stack := 600, btn_stack := 495, bb_stack := 590 }

/-- Witness for C8 (amended) at a concrete input. -/
theorem claim_C8_amended_witness :
    c8wStreet.get_street_status = some (5, 10, 20, Position.button) ∧
    c8wStreet.get_available_actions =
      some [ActionOption.fold, ActionOption.call 10, ActionOption.raise 20 500] ∧
    ((5 : Nat) ≠ 10 ↔ ActionOption.call (min (max 5 10) (activeStartStack c8wStreet .button)) ∈
      [ActionOption.fold, ActionOption.call 10, ActionOption.raise 20 500]) :=
  ⟨rfl, rfl,
    (claim_C8_amended c8wStreet 5 10 20 .button
      [ActionOption.fold, ActionOption.call 10, ActionOption.raise 20 500] rfl rfl).1
      (by decide)⟩

/-! ## C6: the button limp -/

/-- The preflop street after the small blind has been posted. -/
def pbStreet1 (sb b1 b2 : Nat) : Street :=
  { street := .preflop, actions := [.postBlind sb], min_open_raise := 2 * sb,
    btn_start_stack := b1, bb_start_stack := b2, btn_stack := b1 - sb, bb_stack := b2 }

/-- The preflop street after both blinds have been posted. -/
def pbStreet2 (sb b1 b2 : Nat) : Street :=
  { street := .preflop, actions := [.postBlind sb, .postBlind (2 * sb)],
    min_open_raise := 2 * sb, btn_start_stack := b1, bb_start_stack := b2,
    btn_stack := b1 - sb, bb_stack := b2 - 2 * sb }

/-- The preflop street after both blinds and a button limp. -/
def limpStreet3 (sb b1 b2 : Nat) : Street :=
  { street := .preflop, actions := [.postBlind sb, .postBlind (2 * sb), .call (2 * sb)],
    min_open_raise := 2 * sb, btn_start_stack := b1, bb_start_stack := b2,
    btn_stack := b1 - 2 * sb, bb_stack := b2 - 2 * sb }

/-- The preflop street after both blinds have been submitted into a fresh
`Street::new(Preflop, 2*sb, b1, b2)`. -/
def limpStreet (sb b1 b2 : Nat) : Option Street :=
  (okStreet ((Street.new .preflop (2 * sb) b1 b2).submit_action (.postBlind sb))).bind
    fun s => okStreet (s.submit_action (.postBlind (2 * sb)))

theorem submit_blind1 (sb b1 b2 : Nat) (hb1 : sb ≤ b1) :
    (Street.new .preflop (2 * sb) b1 b2).submit_action (.postBlind sb) =
      .ok (.bettingOpen, pbStreet1 sb b1 b2) := by
  rw [submit_action_ok_iff]
  refine ⟨?_, 0, 0, 2 * sb, .button, rfl, sb, 0, 2 * sb, .bigBlind, rfl, hb1,
    Nat.zero_le _, rfl, rfl⟩
  unfold Street.is_valid_action Street.get_available_actions
  simp [Street.new, matchesOption]

theorem submit_blind2 (sb b1 b2 : Nat) (hb1 : sb ≤ b1) (hb2 : 2 * sb ≤ b2) :
    (pbStreet1 sb b1 b2).submit_action (.postBlind (2 * sb)) =
      .ok (.bettingOpen, pbStreet2 sb b1 b2) := by
  rw [submit_action_ok_iff]
  refine ⟨?_, sb, 0, 2 * sb, .bigBlind, rfl, sb, 2 * sb, 2 * (2 * sb), .button, rfl, hb1,
    hb2, rfl, rfl⟩
  unfold Street.is_valid_action Street.get_available_actions
  simp [pbStreet1, matchesOption]

theorem submit_limp (sb b1 b2 : Nat) (hsb : 0 < sb) (hb1 : 2 * sb ≤ b1) (hb2 : 2 * sb ≤ b2) :
    (pbStreet2 sb b1 b2).submit_action (.call (2 * sb)) =
      .ok (.bettingOpen, limpStreet3 sb b1 b2) := by
  rw [submit_action_ok_iff]
  refine ⟨?_, sb, 2 * sb, 2 * (2 * sb), .button, rfl, 2 * sb, 2 * sb, 2 * (2 * sb), .bigBlind,
    rfl, hb1, hb2, ?_, rfl⟩
  · have hav : (pbStreet2 sb b1 b2).get_available_actions =
        some (fullMenu (pbStreet2 sb b1 b2) sb (2 * sb) (2 * (2 * sb)) .button) :=
      get_available_actions_full _ sb (2 * sb) (2 * (2 * sb)) .button
        (by simp [pbStreet2]) (by simp [pbStreet2]) rfl
    unfold Street.is_valid_action
    rw [hav]
    refine congrArg some ?_
    rw [matchesOption_call, mem_fullMenu]
    right; right; left
    refine ⟨by omega, ?_⟩
    rw [show activeStartStack (pbStreet2 sb b1 b2) .button = b1 from rfl]
    congr 1
    omega
  · simp [resultFor, pbStreet2]

theorem limp_menu (sb b1 b2 : Nat) (hsb : 0 < sb) (hb2 : 4 * sb < b2) :
    (limpStreet3 sb b1 b2).get_available_actions =
      some [ActionOption.fold, ActionOption.raise (2 * (2 * sb)) b2, ActionOption.check] := by
  have hav := get_available_actions_full (limpStreet3 sb b1 b2) (2 * sb) (2 * sb)
    (2 * (2 * sb)) .bigBlind (by simp [limpStreet3]) (by simp [limpStreet3]) rfl
  rw [hav]
  refine congrArg some ?_
  unfold fullMenu
  have c1 : ¬(2 * sb = 0 ∧ 2 * sb = 0) := by omega
  have c2 : ¬(2 * sb ≠ 2 * sb) := by omega
  have c3 : 2 * sb + 2 * sb > 0 ∧
      max (2 * sb) (2 * sb) < activeStack (limpStreet3 sb b1 b2) .bigBlind := by
    rw [show activeStack (limpStreet3 sb b1 b2) .bigBlind = b2 - 2 * sb from rfl]
    omega
  have c4 : 2 * sb = 2 * sb := rfl
  rw [if_neg c1, if_neg c2, if_pos c3, if_pos c4]
  rw [show activeStartStack (limpStreet3 sb b1 b2) .bigBlind = b2 from rfl]
  rfl

/-- Claim C6: an accepted `Call` returns `BettingOpen` exactly when it is a
button limp on the preflop — the street is Preflop, the pre-action active
player is the Button, and the call amount equals the street's
`min_open_raise` — and `BettingClosed` in every other case; after posting
both blinds and limping, the round is still open and the BigBlind's
available actions include Check, Raise and Fold. -/
theorem claim_C6_limp :
    (∀ (s : Street) (a : Nat) (r : ActionResult) (s' : Street) (cb cbb m : Nat) (ap : Position),
      s.get_street_status = some (cb, cbb, m, ap) →
      s.submit_action (.call a) = .ok (r, s') →
      ((r = .bettingOpen ↔ (s.street = .preflop ∧ ap = .button ∧ a = s.min_open_raise)) ∧
       (¬(s.street = .preflop ∧ ap = .button ∧ a = s.min_open_raise) → r = .bettingClosed))) ∧
    (∀ sb b1 b2 : Nat, 0 < sb → 2 * sb ≤ b1 → 4 * sb < b2 →
      ((limpStreet sb b1 b2).bind fun s => resOf (s.submit_action (.call (2 * sb)))) =
        some .bettingOpen ∧
      (((limpStreet sb b1 b2).bind fun s => okStreet (s.submit_action (.call (2 * sb)))).bind
          Street.get_available_actions) =
        some [ActionOption.fold, ActionOption.raise (2 * (2 * sb)) b2, ActionOption.check] ∧
      ActionOption.check ∈
        [ActionOption.fold, ActionOption.raise (2 * (2 * sb)) b2, ActionOption.check] ∧
      ActionOption.fold ∈
        [ActionOption.fold, ActionOption.raise (2 * (2 * sb)) b2, ActionOption.check] ∧
      ActionOption.raise (2 * (2 * sb)) b2 ∈
        [ActionOption.fold, ActionOption.raise (2 * (2 * sb)) b2, ActionOption.check]) := by
  constructor
  · intro s a r s' cb cbb m ap hst hsub
    rw [submit_action_ok_iff] at hsub
    obtain ⟨hval, cb', cbb', m', ap', hst', _, _, _, _, _, _, _, hr, _⟩ := hsub
    rw [hst] at hst'
    injection hst' with h12
    rw [Prod.mk.injEq, Prod.mk.injEq, Prod.mk.injEq] at h12
    obtain ⟨-, -, -, h4⟩ := h12
    subst h4
    subst hr
    simp only [resultFor]
    by_cases hc : s.street = .preflop ∧ ap = .button ∧ a = s.min_open_raise
    · rw [if_pos hc]
      simp [hc]
    · rw [if_neg hc]
      simp [hc]
  · intro sb b1 b2 hsb hb1 hb2
    have h1 : sb ≤ b1 := by omega
    have h1' : 2 * sb ≤ b1 := hb1
    have h2 : 2 * sb ≤ b2 := by omega
    have hls : limpStreet sb b1 b2 = some (pbStreet2 sb b1 b2) := by
      unfold limpStreet
      rw [submit_blind1 sb b1 b2 h1]
      simp only [okStreet, Option.some_bind]
      rw [submit_blind2 sb b1 b2 h1 h2]
    have e2 := submit_limp sb b1 b2 hsb h1' h2
    rw [hls]
    refine ⟨?_, ?_, by simp, by simp, by simp⟩
    · simp [e2, resOf]
    · simp [e2, okStreet, limp_menu sb b1 b2 hsb hb2]

/-- The street reached from `c8wStreet` by a button limp. -/
def c6limped : Street :=
  { street := .preflop, actions := [.postBlind 5, .postBlind 10, .call 10],
    min_open_raise := 10, btn_start_stack := 500, bb_start_stack := 600,
    btn_stack := 490, bb_stack := 590 }

/-- Witness for C6 at concrete inputs. -/
theorem claim_C6_limp_witness :
    ((ActionResult.bettingOpen = ActionResult.bettingOpen ↔
        (c8wStreet.street = .preflop ∧ Position.button = Position.button ∧
          10 = c8wStreet.min_open_raise)) ∧
      (¬(c8wStreet.street = .preflop ∧ Position.button = Position.button ∧
          10 = c8wStreet.min_open_raise) →
        ActionResult.bettingOpen = ActionResult.bettingClosed)) ∧
    (((limpStreet 5 500 600).bind fun s => resOf (s.submit_action (.call (2 * 5)))) =
        some .bettingOpen ∧
      (((limpStreet 5 500 600).bind fun s => okStreet (s.submit_action (.call (2 * 5)))).bind
          Street.get_available_actions) =
        some [ActionOption.fold, ActionOption.raise (2 * (2 * 5)) 600, ActionOption.check] ∧
      ActionOption.check ∈
        [ActionOption.fold, ActionOption.raise (2 * (2 * 5)) 600, ActionOption.check] ∧
      ActionOption.fold ∈
        [ActionOption.fold, ActionOption.raise (2 * (2 * 5)) 600, ActionOption.check] ∧
      ActionOption.raise (2 * (2 * 5)) 600 ∈
        [ActionOption.fold, ActionOption.raise (2 * (2 * 5)) 600, ActionOption.check]) :=
  ⟨claim_C6_limp.1 c8wStreet 10 .bettingOpen c6limped 5 10 20 .button rfl rfl,
   claim_C6_limp.2 5 500 600 (by decide) (by decide) (by decide)⟩

/-! ## C9: hole-card privacy of the state snapshot -/

/-- Claim C9: the snapshot built for seat `s` contains the button's hole
cards iff `s` is the button seat and the big blind's hole cards iff `s` is
not the button seat — each seat sees its own hole cards and never the
opponent's. -/
theorem claim_C9_privacy (g : Game) (s : Nat) (gs : GameState)
    (_hseat : s = 0 ∨ s = 1) (h : g.get_state s = some gs) :
    (s = g.button_seat →
      gs.btn_hole_cards = some g.current_hand.btn_hole_cards ∧ gs.bb_hole_cards = none) ∧
    (s ≠ g.button_seat →
      gs.btn_hole_cards = none ∧ gs.bb_hole_cards = some g.current_hand.bb_hole_cards) ∧
    (gs.btn_hole_cards ≠ none ↔ s = g.button_seat) ∧
    (gs.bb_hole_cards ≠ none ↔ s ≠ g.button_seat) := by
  unfold Game.get_state at h
  split at h <;> try exact Option.noConfusion h
  split at h <;> try exact Option.noConfusion h
  split at h <;> try exact Option.noConfusion h
  injection h with h
  subst h
  by_cases hb : s = g.button_seat <;> simp [hb]

/-- A concrete hand (the value of `Hand.new deck9 500 600 5`). -/
def hand500 : Hand :=
  { btn_hole_cards := (9, 8), bb_hole_cards := (7, 6), board_cards := [],
    deck := [1, 2, 3, 4, 5], sb_size := 5, btn_start_stack := 500, bb_start_stack := 600,
    btn_stack := 500, bb_stack := 600, pot := 0,
    streets := [Street.new .preflop 10 500 600] }

/-- A concrete game for witnesses. -/
def c9Game : Game := { current_hand := hand500, button_seat := 0 }

/-- The snapshot `c9Game.get_state 0` produces. -/
def c9State : GameState :=
  { pot_size := 0, btn_stack := 500, bb_stack := 600, btn_added_chips_this_street := 0,
    bb_added_chips_this_street := 0, button_seat := 0, sb_size := 5, bb_size := 10,
    btn_hole_cards := some (9, 8), bb_hole_cards := none, board_cards := [],
    available_actions := [ActionOption.postBlind 5], active_player := .button }

/-- Witness for C9 at a concrete input. -/
theorem claim_C9_privacy_witness :
    c9Game.get_state 0 = some c9State ∧
    c9State.btn_hole_cards = some c9Game.current_hand.btn_hole_cards ∧
    c9State.bb_hole_cards = none :=
  ⟨rfl, (claim_C9_privacy c9Game 0 c9State (Or.inl rfl) rfl).1 rfl⟩

/-! ## C7: settlement -/

/-- The hand after blinds and a button raise to 40 on `c5Hand`. -/
def c7Raised : Option Hand :=
  c5Hand.bind fun h => okHand (h.submit_action ev0 (.raise 40))

/-- The `HandResult` produced when the BigBlind folds to the raise. -/
def c7Result : Option HandResult :=
  c7Raised.bind fun h =>
    match h.submit_action ev0 .fold with
    | .ok (some r, _) => some r
    | _ => none

/-- Claim C7: `get_stacks_after_hand` gives a decisive winner their start
stack plus the other player's total contribution (start stack minus current
stack) and the loser their start stack minus their own contribution, and
returns both start stacks unchanged on a split; concretely, after blinds with
`btn = 500, bb = 600, sb = 5`, a button raise to 40 and a big-blind fold
yield winner Button, no showdown, and next-hand stacks 510 / 590. -/
theorem claim_C7_settlement :
    (∀ h : Hand, h.btn_stack ≤ h.btn_start_stack → h.bb_stack ≤ h.bb_start_stack →
      (h.get_stacks_after_hand (some .button) =
        some (h.btn_start_stack + (h.bb_start_stack - h.bb_stack),
              h.bb_start_stack - (h.bb_start_stack - h.bb_stack)) ∧
       h.get_stacks_after_hand (some .bigBlind) =
        some (h.btn_start_stack - (h.btn_start_stack - h.btn_stack),
              h.bb_start_stack + (h.btn_start_stack - h.btn_stack)) ∧
       h.get_stacks_after_hand none = some (h.btn_start_stack, h.bb_start_stack))) ∧
    c7Result = some { winner := some .button, btn_next_hand_stack := 510,
                      bb_next_hand_stack := 590, showdown := none } := by
  constructor
  · intro h h1 h2
    unfold Hand.get_stacks_after_hand
    rw [checkedSub_of_le h1, checkedSub_of_le h2]
    exact ⟨rfl, rfl, rfl⟩
  · rfl

/-- Witness for C7 at a concrete input. -/
theorem claim_C7_settlement_witness :
    hand500.get_stacks_after_hand (some .button) = some (500, 600) ∧
    hand500.get_stacks_after_hand none = some (500, 600) :=
  ⟨(claim_C7_settlement.1 hand500 (by decide) (by decide)).1,
   (claim_C7_settlement.1 hand500 (by decide) (by decide)).2.2⟩

/-! ## C1: chip conservation -/

theorem streetContribSums_concat_fresh (l : List Street) (nm : StreetName) (m b1 b2 S : Nat)
    (h : streetContribSums l = some S) :
    streetContribSums (l ++ [Street.new nm m b1 b2]) = some S := by
  induction l generalizing S with
  | nil =>
    unfold streetContribSums at h
    injection h with h
    subst h
    show streetContribSums [Street.new nm m b1 b2] = some 0
    have hst : (Street.new nm m b1 b2).get_street_status =
        some (0, 0, m, (Street.new nm m b1 b2).get_first_to_act) := rfl
    unfold streetContribSums
    rw [hst]
    rfl
  | cons st rest ih =>
    unfold streetContribSums at h
    split at h <;> try exact Option.noConfusion h
    rename_i x1 x2 cb cbb m2 ap2 srest hstat hrest
    injection h with h
    subst h
    show streetContribSums (st :: (rest ++ [Street.new nm m b1 b2])) = some (cb + cbb + srest)
    unfold streetContribSums
    rw [hstat, ih srest hrest]

theorem potsFold_spec (l : List Street) (pot bs bbs P BS BBS : Nat)
    (h : potsFold pot bs bbs l = some (P, BS, BBS)) :
    P + BS + BBS = pot + bs + bbs ∧
    ∃ S, streetContribSums l = some S ∧ P = pot + S := by
  induction l generalizing pot bs bbs with
  | nil =>
    unfold potsFold at h
    injection h with h
    rw [Prod.mk.injEq, Prod.mk.injEq] at h
    obtain ⟨h1, h2, h3⟩ := h
    subst h1
    subst h2
    subst h3
    exact ⟨rfl, 0, rfl, by omega⟩
  | cons st rest ih =>
    unfold potsFold at h
    split at h <;> try exact Option.noConfusion h
    rename_i xs cb cbb m2 ap2 hstat
    split at h <;> try exact Option.noConfusion h
    rename_i x1 x2 bs' bbs' hc1 hc2
    obtain ⟨hle1, he1⟩ := checkedSub_eq_some hc1
    obtain ⟨hle2, he2⟩ := checkedSub_eq_some hc2
    subst he1
    subst he2
    obtain ⟨hcons, S, hsum, hP⟩ := ih _ _ _ h
    refine ⟨by omega, cb + cbb + S, ?_, by omega⟩
    unfold streetContribSums
    rw [hstat, hsum]

theorem update_pot_and_stacks_spec (h h2 : Hand) (hu : h.update_pot_and_stacks = some h2) :
    h2.pot + h2.btn_stack + h2.bb_stack = h2.btn_start_stack + h2.bb_start_stack ∧
    streetContribSums h2.streets = some h2.pot ∧
    h2.streets = h.streets ∧ h2.btn_start_stack = h.btn_start_stack ∧
    h2.bb_start_stack = h.bb_start_stack := by
  unfold Hand.update_pot_and_stacks at hu
  split at hu <;> try exact Option.noConfusion hu
  rename_i x P BS BBS hp
  injection hu with hu
  subst hu
  obtain ⟨hcons, S, hsum, hP⟩ := potsFold_spec _ _ _ _ _ _ _ hp
  refine ⟨by simp; omega, ?_, rfl, rfl, rfl⟩
  show streetContribSums h.streets = some P
  rw [hsum]
  congr 1
  omega

theorem goto_next_street_spec (h h3 : Hand) (hg : h.goto_next_street = some h3) :
    ∃ nm bc dk, h3 = { h with
      board_cards := bc, deck := dk,
      streets := h.streets ++ [Street.new nm (h.sb_size * 2) h.btn_stack h.bb_stack] } := by
  unfold Hand.goto_next_street at hg
  simp only [] at hg
  split at hg <;> try exact Option.noConfusion hg
  rename_i last hlast
  split at hg
  · -- preflop: three board cards
    split at hg <;> try exact Option.noConfusion hg
    rename_i p1 b1 d1 h1
    split at hg <;> try exact Option.noConfusion hg
    rename_i p2 b2 d2 h2x
    split at hg <;> try exact Option.noConfusion hg
    rename_i p3 b3 d3 h3x
    injection hg with hg
    exact ⟨.flop, _, _, hg.symm⟩
  · -- flop
    split at hg <;> try exact Option.noConfusion hg
    rename_i p1 b1 d1 h1
    injection hg with hg
    exact ⟨.turn, _, _, hg.symm⟩
  · -- turn
    split at hg <;> try exact Option.noConfusion hg
    rename_i p1 b1 d1 h1
    injection hg with hg
    exact ⟨.river, _, _, hg.symm⟩
  · -- river: panic
    exact Option.noConfusion hg
  · -- endOfHand
    injection hg with hg
    exact ⟨.preflop, h.board_cards, h.deck, hg.symm⟩

/-- Claim C1: whenever `Hand::submit_action` accepts an action (returns
`Ok`), the resulting hand satisfies chip conservation —
`pot + btn_stack + bb_stack = btn_start_stack + bb_start_stack` — and its pot
equals the sum over all streets of the button's and big blind's per-street
contributions as computed by `get_street_status`.  Since this holds of the
hand returned by every accepted action, it holds after every prefix of every
accepted action sequence. -/
theorem claim_C1_chip_conservation (evalHand : List Card → Option Nat) (h : Hand) (a : Action)
    (res : Option HandResult) (h' : Hand)
    (hok : h.submit_action evalHand a = .ok (res, h')) :
    h'.pot + h'.btn_stack + h'.bb_stack = h'.btn_start_stack + h'.bb_start_stack ∧
    streetContribSums h'.streets = some h'.pot := by
  unfold Hand.submit_action at hok
  split at hok <;> try exact Except.noConfusion hok
  rename_i street hlast
  split at hok <;> try exact Except.noConfusion hok
  rename_i xv hval
  split at hok <;> try exact Except.noConfusion hok
  rename_i xsub r2 street' hsub
  simp only [] at hok
  split at hok <;> try exact Except.noConfusion hok
  rename_i xup h2 hup
  obtain ⟨hcons, hsum, hstr, hb1, hb2⟩ := update_pot_and_stacks_spec _ _ hup
  split at hok
  · -- bettingClosed
    split at hok
    · -- river: showdown
      split at hok <;> try exact Except.noConfusion hok
      rename_i xsd sd winner hsd
      split at hok <;> try exact Except.noConfusion hok
      rename_i xga bs bbs hga
      rw [Except.ok.injEq, Prod.mk.injEq] at hok
      obtain ⟨-, hh⟩ := hok
      subst hh
      exact ⟨hcons, hsum⟩
    · -- advance to the next street
      split at hok <;> try exact Except.noConfusion hok
      rename_i xg h3 hg
      rw [Except.ok.injEq, Prod.mk.injEq] at hok
      obtain ⟨-, hh⟩ := hok
      subst hh
      obtain ⟨nm, bc, dk, h3eq⟩ := goto_next_street_spec _ _ hg
      subst h3eq
      exact ⟨hcons, streetContribSums_concat_fresh _ _ _ _ _ _ hsum⟩
  · -- bettingOpen
    rw [Except.ok.injEq, Prod.mk.injEq] at hok
    obtain ⟨-, hh⟩ := hok
    subst hh
    exact ⟨hcons, hsum⟩
  · -- fold
    split at hok <;> try exact Except.noConfusion hok
    rename_i xga bs bbs hga
    rw [Except.ok.injEq, Prod.mk.injEq] at hok
    obtain ⟨-, hh⟩ := hok
    subst hh
    exact ⟨hcons, hsum⟩

/-- The street of `hand500` after the small blind is posted. -/
def c1Street : Street :=
  { street := .preflop, actions := [.postBlind 5], min_open_raise := 10,
    btn_start_stack := 500, bb_start_stack := 600, btn_stack := 495, bb_stack := 600 }

/-- The hand after `PostBlind(5)` on `hand500`. -/
def c1After : Hand :=
  { btn_hole_cards := (9, 8), bb_hole_cards := (7, 6), board_cards := [],
    deck := [1, 2, 3, 4, 5], sb_size := 5, btn_start_stack := 500, bb_start_stack := 600,
    btn_stack := 495, bb_stack := 600, pot := 5, streets := [c1Street] }

/-- Witness for C1 at a concrete input. -/
theorem claim_C1_chip_conservation_witness :
    hand500.submit_action ev0 (.postBlind 5) = .ok (none, c1After) ∧
    (c1After.pot + c1After.btn_stack + c1After.bb_stack =
      c1After.btn_start_stack + c1After.bb_start_stack ∧
     streetContribSums c1After.streets = some c1After.pot) :=
  ⟨rfl, claim_C1_chip_conservation ev0 hand500 (.postBlind 5) none c1After rfl⟩

/-! ## C10: no-underflow safety -/

/-- The safety invariant of a betting round: the status replay does not
panic, both contributions are within the street-start stacks, the replayed
minimum raise size dominates the larger contribution, and the stored stacks
agree with the replay. -/
def Good (s : Street) : Prop :=
  ∃ cb cbb m ap, s.get_street_status = some (cb, cbb, m, ap) ∧
    cb ≤ s.btn_start_stack ∧ cbb ≤ s.bb_start_stack ∧ max cb cbb ≤ m ∧
    s.btn_stack = s.btn_start_stack - cb ∧ s.bb_stack = s.bb_start_stack - cbb

/-- The side condition on blind posting that the amended claim requires: a
`PostBlind(n)` must fit in the poster's street-start stack **and** satisfy
`2 * n ≥` the larger prior contribution (so the new minimum raise size still
dominates both contributions); every other action is unrestricted. -/
def blindSafe (s : Street) (a : Action) : Bool :=
  match a with
  | .postBlind n =>
    match s.get_street_status with
    | some (cb, cbb, _, ap) =>
        decide (n ≤ activeStartStack s ap) && decide (max cb cbb ≤ 2 * n)
    | none => false
  | _ => true

theorem good_step_aux (s : Street) (a : Action) (cb cbb m : Nat) (ap : Position)
    (hst : s.get_street_status = some (cb, cbb, m, ap))
    (hval : s.is_valid_action a = some true)
    (newcb newcbb newm : Nat)
    (hstep : statusStep (cb, cbb, m, ap) a = some (newcb, newcbb, newm, other_player ap))
    (h1 : newcb ≤ s.btn_start_stack) (h2 : newcbb ≤ s.bb_start_stack)
    (h3 : max newcb newcbb ≤ newm) :
    isOkE (s.submit_action a) = true ∧
    ∀ r s', s.submit_action a = .ok (r, s') → Good s' := by
  have hst1 : Street.get_street_status { s with actions := s.actions ++ [a] } =
      some (newcb, newcbb, newm, other_player ap) := by
    rw [get_street_status_push, hst]
    exact hstep
  have hsub : s.submit_action a = .ok (resultFor s a ap,
      { s with
         actions := s.actions ++ [a],
         btn_stack := s.btn_start_stack - newcb,
         bb_stack := s.bb_start_stack - newcbb }) := by
    rw [submit_action_ok_iff]
    exact ⟨hval, cb, cbb, m, ap, hst, newcb, newcbb, newm, other_player ap, hst1, h1, h2,
      rfl, rfl⟩
  constructor
  · rw [hsub]
    rfl
  · intro r s' h
    rw [hsub] at h
    injection h with h
    rw [Prod.mk.injEq] at h
    obtain ⟨-, hs'⟩ := h
    subst hs'
    exact ⟨newcb, newcbb, newm, other_player ap, hst1, h1, h2, h3, rfl, rfl⟩

/-- Every successfully computed action menu is either one of the two preflop
blind-phase singletons or the full menu determined by the street status. -/
theorem menu_of_valid (s : Street) (cb cbb m : Nat) (ap : Position) (av : List ActionOption)
    (hst : s.get_street_status = some (cb, cbb, m, ap))
    (hav : s.get_available_actions = some av) :
    av = [ActionOption.postBlind (s.min_open_raise / 2)] ∨
    av = [ActionOption.postBlind s.min_open_raise] ∨
    av = fullMenu s cb cbb m ap := by
  by_cases h0 : s.street = .preflop ∧ s.actions.length = 0
  · unfold Street.get_available_actions at hav
    rw [if_pos h0] at hav
    injection hav with hav
    exact Or.inl hav.symm
  · by_cases h1 : s.street = .preflop ∧ s.actions.length = 1
    · unfold Street.get_available_actions at hav
      rw [if_neg h0, if_pos h1] at hav
      injection hav with hav
      exact Or.inr (Or.inl hav.symm)
    · rw [get_available_actions_full s cb cbb m ap h0 h1 hst] at hav
      injection hav with hav
      exact Or.inr (Or.inr hav.symm)

/-- Claim C10 as amended: starting from any freshly created street, and along
any sequence of actions each accepted by the validity check, in which every
`PostBlind(n)` both fits in the poster's street-start stack and satisfies
`2 * n ≥` the larger prior contribution, `submit_action` never panics: the
contributions computed by `get_street_status` never exceed the street-start
stacks, a replayed `Raise` amount is never below the larger prior
contribution, and the `u64` subtractions never underflow.  Stated as: every
fresh street satisfies the invariant `Good`, and from any `Good` street a
valid, blind-safe action yields `Ok` with a `Good` successor. -/
theorem claim_C10_no_underflow_amended :
    (∀ (nm : StreetName) (m0 b1 b2 : Nat), Good (Street.new nm m0 b1 b2)) ∧
    (∀ (s : Street) (a : Action), Good s → s.is_valid_action a = some true →
      blindSafe s a = true →
      isOkE (s.submit_action a) = true ∧
      ∀ r s', s.submit_action a = .ok (r, s') → Good s') := by
  constructor
  · intro nm m0 b1 b2
    exact ⟨0, 0, m0, (Street.new nm m0 b1 b2).get_first_to_act, rfl, Nat.zero_le _,
      Nat.zero_le _, by simp, by simp [Street.new], by simp [Street.new]⟩
  · intro s a hg hval hbsafeT
    obtain ⟨cb, cbb, m, ap, hst, hcb, hcbb, hm, hsb, hsbb⟩ := hg
    have hvAv : ∃ av, s.get_available_actions = some av ∧ matchesOption av a = true := by
      unfold Street.is_valid_action at hval
      cases hA : s.get_available_actions with
      | none => rw [hA] at hval; exact Option.noConfusion hval
      | some av =>
        rw [hA] at hval
        injection hval with hval
        exact ⟨av, rfl, hval⟩
    obtain ⟨av, hav, hmatch⟩ := hvAv
    have eBtn : activeStartStack s .button = s.btn_start_stack := rfl
    have eBB : activeStartStack s .bigBlind = s.bb_start_stack := rfl
    cases a with
    | fold => exact good_step_aux s .fold cb cbb m ap hst hval cb cbb m rfl hcb hcbb hm
    | check => exact good_step_aux s .check cb cbb m ap hst hval cb cbb m rfl hcb hcbb hm
    | postBlind n =>
      unfold blindSafe at hbsafeT
      rw [hst] at hbsafeT
      simp only [Bool.and_eq_true, decide_eq_true_eq] at hbsafeT
      obtain ⟨hns, hnm⟩ := hbsafeT
      cases ap with
      | button =>
        rw [eBtn] at hns
        exact good_step_aux s (.postBlind n) cb cbb m .button hst hval n cbb (2 * n) rfl
          hns hcbb (by omega)
      | bigBlind =>
        rw [eBB] at hns
        exact good_step_aux s (.postBlind n) cb cbb m .bigBlind hst hval cb n (2 * n) rfl
          hcb hns (by omega)
    | call n =>
      rcases menu_of_valid s cb cbb m ap av hst hav with hA | hA | hA
      · subst hA
        rw [matchesOption_call] at hmatch
        simp at hmatch
      · subst hA
        rw [matchesOption_call] at hmatch
        simp at hmatch
      · subst hA
        rw [matchesOption_call, mem_fullMenu] at hmatch
        rcases hmatch with hx | hx | hx | hx | hx
        · exact absurd hx (by simp)
        · exact absurd hx.2 (by simp)
        · obtain ⟨hne, hcn⟩ := hx
          injection hcn with hn
          subst hn
          cases ap with
          | button =>
            rw [eBtn]
            exact good_step_aux s (.call (min (max cb cbb) s.btn_start_stack)) cb cbb m
              .button hst hval (min (max cb cbb) s.btn_start_stack) cbb m rfl
              (by omega) hcbb (by omega)
          | bigBlind =>
            rw [eBB]
            exact good_step_aux s (.call (min (max cb cbb) s.bb_start_stack)) cb cbb m
              .bigBlind hst hval cb (min (max cb cbb) s.bb_start_stack) m rfl
              hcb (by omega) (by omega)
        · exact absurd hx.2 (by simp)
        · exact absurd hx.2 (by simp)
    | bet n =>
      rcases menu_of_valid s cb cbb m ap av hst hav with hA | hA | hA
      · subst hA
        rw [matchesOption_bet] at hmatch
        simp at hmatch
      · subst hA
        rw [matchesOption_bet] at hmatch
        simp at hmatch
      · subst hA
        rw [matchesOption_bet] at hmatch
        obtain ⟨lo, hi, hmem, hlo, hhi⟩ := hmatch
        rw [mem_fullMenu] at hmem
        rcases hmem with hx | hx | hx | hx | hx
        · exact absurd hx (by simp)
        · obtain ⟨⟨hc0, hc0'⟩, hbet⟩ := hx
          injection hbet with hl hh
          rw [hh] at hhi
          subst hc0
          subst hc0'
          cases ap with
          | button =>
            have hstk : activeStack s .button = s.btn_start_stack - 0 := hsb
            rw [hstk] at hhi
            exact good_step_aux s (.bet n) 0 0 m .button hst hval n 0 (2 * n) rfl
              (by omega) (Nat.zero_le _) (by omega)
          | bigBlind =>
            have hstk : activeStack s .bigBlind = s.bb_start_stack - 0 := hsbb
            rw [hstk] at hhi
            exact good_step_aux s (.bet n) 0 0 m .bigBlind hst hval 0 n (2 * n) rfl
              (Nat.zero_le _) (by omega) (by omega)
        · exact absurd hx.2 (by simp)
        · exact absurd hx.2 (by simp)
        · exact absurd hx.2 (by simp)
    | raise n =>
      rcases menu_of_valid s cb cbb m ap av hst hav with hA | hA | hA
      · subst hA
        rw [matchesOption_raise] at hmatch
        simp at hmatch
      · subst hA
        rw [matchesOption_raise] at hmatch
        simp at hmatch
      · subst hA
        rw [matchesOption_raise] at hmatch
        obtain ⟨lo, hi, hmem, hlo, hhi⟩ := hmatch
        rw [mem_fullMenu] at hmem
        rcases hmem with hx | hx | hx | hx | hx
        · exact absurd hx (by simp)
        · exact absurd hx.2 (by simp)
        · exact absurd hx.2 (by simp)
        · obtain ⟨⟨hpos, hlt⟩, hraise⟩ := hx
          injection hraise with hl hh
          rw [hl] at hlo
          rw [hh] at hhi
          have hbig : max cb cbb ≤ n := by omega
          cases ap with
          | button =>
            have hstep : statusStep (cb, cbb, m, .button) (.raise n) =
                some (n, cbb, max cb cbb + 2 * (n - max cb cbb), other_player .button) := by
              simp [statusStep, hbig]
            rw [eBtn] at hhi
            exact good_step_aux s (.raise n) cb cbb m .button hst hval n cbb
              (max cb cbb + 2 * (n - max cb cbb)) hstep (by omega) hcbb (by omega)
          | bigBlind =>
            have hstep : statusStep (cb, cbb, m, .bigBlind) (.raise n) =
                some (cb, n, max cb cbb + 2 * (n - max cb cbb), other_player .bigBlind) := by
              simp [statusStep, hbig]
            rw [eBB] at hhi
            exact good_step_aux s (.raise n) cb cbb m .bigBlind hst hval cb n
              (max cb cbb + 2 * (n - max cb cbb)) hstep hcb (by omega) (by omega)
        · exact absurd hx.2 (by simp)

/-- Flop street after a big-blind bet of 100. -/
def c10s1 : Option Street :=
  okStreet ((Street.new .flop 10 1000 2000).submit_action (.bet 100))

/-- The same street after the button additionally submits `PostBlind(20)`
(always treated as valid by the source, and within the button's street-start
stack of 1000). -/
def c10s2 : Option Street :=
  c10s1.bind fun s => okStreet (s.submit_action (.postBlind 20))

/-- Counterexample to claim C10 as stated: on the flop with stacks
1000 / 2000, the sequence `Bet(100)`, `PostBlind(20)` is accepted (and the
blind amount 20 does not exceed the poster's street-start stack), after which
`Raise(40)` passes the validity check — yet its replay subtracts the larger
prior contribution 100 from the raise amount 40, underflowing: the raise
amount **is** below the larger prior contribution and `submit_action`
panics. -/
theorem claim_C10_counterexample :
    c10s2.map (fun s => s.is_valid_action (.raise 40)) = some (some true) ∧
    c10s2.map (fun s => s.submit_action (.raise 40)) = some (.error .panic) ∧
    c10s2.bind Street.get_street_status = some (20, 100, 40, Position.bigBlind) ∧
    ((20 : Nat) ≤ 1000) ∧ (40 < max 20 100) := by
  refine ⟨rfl, rfl, rfl, by decide, by decide⟩

/-- Witness for C10 (amended) at a concrete input. -/
theorem claim_C10_no_underflow_amended_witness :
    Good (Street.new .flop 10 1000 2000) ∧
    isOkE ((Street.new .flop 10 1000 2000).submit_action .check) = true :=
  ⟨claim_C10_no_underflow_amended.1 .flop 10 1000 2000,
   (claim_C10_no_underflow_amended.2 (Street.new .flop 10 1000 2000) .check
      (claim_C10_no_underflow_amended.1 .flop 10 1000 2000) rfl rfl).1⟩

end Hu4Rolls
